import Mathlib

/-!
# Verification of the AvJason JSON5 lexer specification

Shallow embedding of the AvJason lexing core (the `src/lexing` subtree of the
crate, plus the legacy `src/lex` number grammar) into Lean 4, together with
theorems settling the frozen specification claims.

Conventions of the embedding:
* A `Source` is a `List Char` (the crate materialises the input as `Vec<char>`);
  a `SourceStream` is the pair of that list and a cursor index `Nat`.
* Every Rust lex function of type `fn(&mut SourceStream) -> ...` becomes a Lean
  function `List Char → Nat → LexResult α` where the result carries the new
  cursor index; `LexResult.nothing i` keeps the unchanged index.
* A Rust panic (`unwrap` on `None`/`Err`, `unreachable!`) is modelled by the
  extra constructor `LexResult.panic`, so the embedding stays total.
* Loops (`take_until`, `Many`) are written with an explicit fuel argument so
  that all definitions compute by kernel reduction; the fuel chosen is always
  strictly larger than the number of iterations the Rust loop can perform.
* The Unicode character database lookup of the external `finl_unicode` crate is
  a parameter `cl : Char → MinorCategory`; `asciiMinorCategory` instantiates it
  correctly on the ASCII range for concrete witnesses.
-/

namespace AvJason

/-! ## Locations and spans (`src/common/location.rs`) -/

/-- `Span` from `common/location.rs`: half-open character range,
`start` inclusive, `stop` (Rust `end`, a Lean keyword) exclusive. -/
structure Span where
  start : Nat
  stop : Nat
deriving DecidableEq, Repr

/-- `Span::combine` from `common/location.rs`: keep `start`, take the `end` of
the last span of `others` when `others` is nonempty. -/
def Span.combine (s : Span) (others : List Span) : Span :=
  match others.getLast? with
  | some last => ⟨s.start, last.stop⟩
  | none => s

/-- Modelled from the spec: `Span::empty()` is missing from the source
snapshot; §3 describes it as a zero-length span usable as an accumulator
identity. -/
def Span.empty : Span := ⟨0, 0⟩

/-- `Span::single_char(loc)`: the one-character span starting at `loc`
(`utils/span.rs`; the spec lists it in §3). -/
def Span.singleChar (loc : Nat) : Span := ⟨loc, loc + 1⟩

/-- Modelled from the spec: `Span::from(Loc)` is missing from the source
snapshot; it is used for one-character tokens, whose span per §4.1 covers
exactly the consumed character, i.e. `single_char`. -/
def Span.ofLoc (loc : Nat) : Span := Span.singleChar loc

/-- `SpanIter::combine` folded into a total function: the combined span of a
list of spans, `Span.empty` for the empty list (the compound-token `Spanned`
derive is missing from the snapshot; §3 of the spec: a compound token's span is
"derived as the combination of child spans"). -/
def Span.ofList (ss : List Span) : Span :=
  match ss with
  | [] => Span.empty
  | s :: rest => s.combine rest

/-! ## Errors and results (`src/lexing/utils/result.rs`) -/

/-- `LexError` from `lexing/utils/result.rs`: a spanned message. -/
structure LexError where
  span : Span
  message : String
deriving DecidableEq, Repr

/-- `LexResult` from `lexing/utils/result.rs`, with the stream cursor made
explicit: `lexed`/`errant`/`nothing` carry the index the stream is left at
(`nothing` always carries the unchanged index).  The extra `panic` constructor
models a Rust panic, which the Rust type cannot express because the process
dies; it makes the embedding total. -/
inductive LexResult (α : Type) where
  | lexed (a : α) (i : Nat)
  | errant (e : LexError) (i : Nat)
  | nothing (i : Nat)
  | panic
deriving DecidableEq, Repr

namespace LexResult

/-- `LexResult::is_lexed`. -/
def isLexed {α : Type} : LexResult α → Bool
  | .lexed _ _ => true
  | _ => false

/-- `LexResult::is_errant`. -/
def isErrant {α : Type} : LexResult α → Bool
  | .errant _ _ => true
  | _ => false

/-- `LexResult::is_nothing`. -/
def isNothing {α : Type} : LexResult α → Bool
  | .nothing _ => true
  | _ => false

/-- `LexResult::map`. -/
def map {α β : Type} (f : α → β) : LexResult α → LexResult β
  | .lexed a i => .lexed (f a) i
  | .errant e i => .errant e i
  | .nothing i => .nothing i
  | .panic => .panic

/-- `LexResult::or`: only `Nothing` falls through to the alternative, which
runs on the (unchanged) stream index carried by `nothing`. -/
def orElse {α : Type} (r : LexResult α) (f : Nat → LexResult α) : LexResult α :=
  match r with
  | .nothing i => f i
  | r => r

/-- `LexResult::and`: chain on `Lexed`, passing the advanced index. -/
def andThen {α β : Type} (r : LexResult α) (f : α → Nat → LexResult β) : LexResult β :=
  match r with
  | .lexed a i => f a i
  | .errant e i => .errant e i
  | .nothing i => .nothing i
  | .panic => .panic

/-- `SourceStream::span()` (`Spanned for SourceStream` in `stream.rs`):
the single-character span at the cursor, used by `error` and `expected`. -/
def streamSpan (i : Nat) : Span := ⟨i, i + 1⟩

/-- `LexResult::expected_msg`: promote `Nothing` to `Errant` with a custom
message at the current stream location. -/
def expectedMsg {α : Type} (r : LexResult α) (msg : String) : LexResult α :=
  match r with
  | .nothing i => .errant ⟨streamSpan i, msg⟩ i
  | r => r

/-- `LexResult::unwrap_as_result` (and the identically-behaved `into_result`
used by `Comment::lex` and `LineTerminator::lex`, missing from the snapshot):
`Nothing` panics, the other outcomes pass through. -/
def unwrapAsResult {α : Type} : LexResult α → LexResult α
  | .nothing _ => .panic
  | r => r

end LexResult

/-! ## Stream lookahead helpers (`src/lexing/utils/stream.rs`) -/

/-- `Lookahead for &str`: exact prefix match of `pat` at index `i`
(`characters().get(index..index+len) == chars`). -/
def matchesAt (src : List Char) (i : Nat) (pat : List Char) : Bool :=
  match pat with
  | [] => true
  | c :: rest =>
    match src.get? i with
    | some d => d = c && matchesAt src (i + 1) rest
    | none => false

/-- `Lookahead for F: Fn(&char) -> bool`: `peek().map(f).unwrap_or(false)`. -/
def upcomingPred (src : List Char) (i : Nat) (p : Char → Bool) : Bool :=
  match src.get? i with
  | some c => p c
  | none => false

/-- `SourceStream::take`: consume one character, returning location and
character; `none` at end of input. -/
def streamTake (src : List Char) (i : Nat) : Option (Nat × Char) :=
  match src.get? i with
  | some c => some (i, c)
  | none => none

/-! ## Unicode categories (`src/lexing/utils/unicode.rs` / `finl_unicode`) -/

/-- The Unicode minor (general) categories, as in `lexing/utils/unicode.rs`. -/
inductive MinorCategory where
  | Lu | Ll | Lt | Lm | Lo
  | Mn | Mc | Me
  | Nd | Nl | No
  | Pc | Pd | Ps | Pe | Pi | Pf | Po
  | Sm | Sk | Sc | So
  | Zs | Zl | Zp
  | Cc | Cf | Co | Cn
deriving DecidableEq, Repr

/-- Modelled from the Unicode character database (the `finl_unicode` crate is
external to the repository): the minor category of ASCII characters, used to
instantiate the classifier parameter `cl` in concrete witnesses.  It is
accurate on all ASCII code points for every predicate the lexer evaluates
(letter, digit, connector punctuation, space separator, combining marks). -/
def asciiMinorCategory (c : Char) : MinorCategory :=
  if 'A' ≤ c ∧ c ≤ 'Z' then .Lu
  else if 'a' ≤ c ∧ c ≤ 'z' then .Ll
  else if '0' ≤ c ∧ c ≤ '9' then .Nd
  else if c = '_' then .Pc
  else if c = '$' then .Sc
  else if c = ' ' then .Zs
  else if c.toNat < 0x20 ∨ c.toNat = 0x7F then .Cc
  else .Po

/-- `char::is_ascii_hexdigit` from the Rust standard library. -/
def isAsciiHexdigit (c : Char) : Bool :=
  ('0' ≤ c && c ≤ '9') || ('A' ≤ c && c ≤ 'F') || ('a' ≤ c && c ≤ 'f')

/-- `char::is_ascii_digit` from the Rust standard library. -/
def isAsciiDigit (c : Char) : Bool :=
  '0' ≤ c && c ≤ '9'

/-- Modelled from the spec: `is_line_terminator` (referenced by
`lexing/tokens/string.rs` and `escapes.rs`) is missing from the snapshot;
§4.3 lists the line terminators LF, CR, LS (U+2028), PS (U+2029). -/
def isLineTerminatorChar (c : Char) : Bool :=
  c = '\n' || c = '\r' || c = '\u2028' || c = '\u2029'

/-- UTF-16 encoding of a Unicode scalar value (`char::encode_utf16`):
one code unit below U+10000, a surrogate pair above. -/
def utf16Encode (c : Char) : List Nat :=
  let v := c.toNat
  if v < 0x10000 then [v]
  else [0xD800 + (v - 0x10000) / 0x400, 0xDC00 + (v - 0x10000) % 0x400]

/-- `char::decode_utf16(...).next().and_then(Result::ok)` as used by
`CharacterValue::try_as_char` (`lexing/tokens/string.rs`): decode the first
scalar from a UTF-16 unit sequence, `none` for an unpaired surrogate. -/
def decodeUtf16First (units : List Nat) : Option Char :=
  match units with
  | [] => none
  | u :: rest =>
    if 0xD800 ≤ u ∧ u < 0xDC00 then
      match rest with
      | v :: _ =>
        if 0xDC00 ≤ v ∧ v < 0xE000 then
          some (Char.ofNat (0x10000 + (u - 0xD800) * 0x400 + (v - 0xDC00)))
        else none
      | [] => none
    else if 0xDC00 ≤ u ∧ u < 0xE000 then none
    else some (Char.ofNat u)

/-! ## The lex contract and the blanket `Lex` impl
(`src/lexing/utils/mod.rs`, `peek.rs`) -/

/-- A `LexT` instance (`lexing/utils/mod.rs`): the internal two-method
protocol.  `peekT` is the pure lookahead; `lexT` is the committed lexer, which
in Rust returns `Result<Self, LexError>` and may panic — here its `LexResult`
never uses the `nothing` constructor. -/
structure LexTInst (α : Type) where
  peekT : List Char → Nat → Bool
  lexT : List Char → Nat → LexResult α

/-- The blanket `impl<L: LexT> Lex for L` (`lexing/utils/mod.rs` together with
`Peek::then_lex` in `peek.rs`): a false peek yields `Nothing` without touching
the stream; otherwise the internal `lexT` runs. -/
def lexBlanket {α : Type} (L : LexTInst α) (src : List Char) (i : Nat) : LexResult α :=
  if L.peekT src i then L.lexT src i else .nothing i

/-! ## Quantifier combinators (`src/lexing/utils/lex_impls.rs`) -/

/-- The loop body of `impl Lex for Many<L>` (`lex_impls.rs`): append on
`Lexed`, stop on `Nothing`, propagate `Errant`.  The Rust loop is unbounded;
`fuel` bounds it here and is chosen strictly larger than the possible number
of iterations (every `LexT` instance in the crate consumes at least one
character per `Lexed`), so the fuel-exhausted branch is never taken. -/
def manyLexAux {α : Type} (L : LexTInst α) (src : List Char) :
    Nat → Nat → LexResult (List α)
  | 0, i => .lexed [] i
  | fuel + 1, i =>
    match lexBlanket L src i with
    | .lexed a j =>
      match manyLexAux L src fuel j with
      | .lexed as k => .lexed (a :: as) k
      | r => r
    | .errant e j => .errant e j
    | .nothing _ => .lexed [] i
    | .panic => .panic

/-- `impl Lex for Many<L>` (`lex_impls.rs`): `Many<L> = Vec<L>`; its `lex`
loops the element lexer.  `Many::peek` is constantly true. -/
def manyLex {α : Type} (L : LexTInst α) (src : List Char) (i : Nat) :
    LexResult (List α) :=
  manyLexAux L src (src.length + 1) i

/-- `Exactly::<N, L>::peek` (`lex_impls.rs`): trivially possible for `N = 0`,
otherwise the element's peek. -/
def exactlyPeek {α : Type} (N : Nat) (L : LexTInst α) (src : List Char) (i : Nat) : Bool :=
  if N = 0 then true else L.peekT src i

/-- `Exactly::<N, L>::lex` (`lex_impls.rs`): lex `Many<L>` greedily, then
`Errant` unless exactly `N` elements were consumed.  The Rust message embeds
`std::any::type_name::<L>()`, which has no Lean counterpart and is elided. -/
def exactlyLex {α : Type} (N : Nat) (L : LexTInst α) (src : List Char) (i : Nat) :
    LexResult (List α) :=
  match manyLex L src i with
  | .lexed as j =>
    if as.length = N then .lexed as j
    else
      .errant
        ⟨LexResult.streamSpan j,
          "Expected " ++ toString N ++ " tokens: got " ++ toString as.length ++ "."⟩ j
  | r => r

/-- `AtLeast::<N, L>::peek` (`lex_impls.rs`). -/
def atLeastPeek {α : Type} (N : Nat) (L : LexTInst α) (src : List Char) (i : Nat) : Bool :=
  if N = 0 then true else L.peekT src i

/-- `AtLeast::<N, L>::lex` (`lex_impls.rs`): `Errant` when fewer than `N`
elements were consumed (type name elided from the message as above). -/
def atLeastLex {α : Type} (N : Nat) (L : LexTInst α) (src : List Char) (i : Nat) :
    LexResult (List α) :=
  match manyLex L src i with
  | .lexed as j =>
    if as.length < N then
      .errant
        ⟨LexResult.streamSpan j,
          "Expected at least " ++ toString N ++ " tokens: got " ++ toString as.length ++ "."⟩ j
    else .lexed as j
  | r => r

/-! ## Verbatim and character-pattern matchers
(`src/lexing/utils/verbatim.rs`, re-exported as `crate::lexing::Verbatim`) -/

/-- `Verbatim::<A>::lex` (`lexing/utils/verbatim.rs`): take `A.chars().count()`
characters unconditionally (each `take()` is `unwrap`ped — out of input is a
panic), the span being the combination of the single-character spans, which is
`Span.empty` for the empty literal.  The token value is its span. -/
def verbatimLexT (A : List Char) (src : List Char) (i : Nat) : LexResult Span :=
  if i + A.length ≤ src.length then
    .lexed (Span.ofList ((List.range A.length).map (fun k => Span.ofLoc (i + k))))
      (i + A.length)
  else .panic

/-- `impl LexT for Verbatim<A>` (`lexing/utils/verbatim.rs`): peek is exact
prefix match of the literal. -/
def verbatimInst (A : List Char) : LexTInst Span :=
  ⟨fun src i => matchesAt src i A, verbatimLexT A⟩

/-- A lexed `CharPattern`/category-matcher/`HexDigit` token: the consumed
character and its span (fields `raw` and `span` in the Rust structs). -/
structure CharTok where
  span : Span
  raw : Char
deriving DecidableEq, Repr

/-- `impl LexT for CharPattern<R>` (`lexing/utils/verbatim.rs`): peek tests the
half-open range, lex takes one character (`unwrap` = panic at end of input). -/
def charPatternInst (lo hi : Char) : LexTInst CharTok :=
  ⟨fun src i => upcomingPred src i (fun c => lo ≤ c && c < hi),
   fun src i =>
     match streamTake src i with
     | some (loc, c) => .lexed ⟨Span.ofLoc loc, c⟩ (i + 1)
     | none => .panic⟩

/-- `impl LexT for MatchMinorCategory<C>` (`lexing/utils/unicode.rs`):
peek tests membership of the next character's category in the list `C`;
lex takes one character (`unwrap` = panic at end of input). -/
def minorCategoryInst (cl : Char → MinorCategory) (cats : List MinorCategory) :
    LexTInst CharTok :=
  ⟨fun src i => upcomingPred src i (fun c => cats.contains (cl c)),
   fun src i =>
     match streamTake src i with
     | some (loc, c) => .lexed ⟨Span.ofLoc loc, c⟩ (i + 1)
     | none => .panic⟩

/-! ## `take_until` (`src/lexing/utils/stream.rs`) -/

/-- Loop body of `SourceStream::take_until`: collect characters while in
bounds and the stream predicate is false.  Fuel bounds the loop as for
`manyLexAux`; it is chosen so exhaustion is unreachable. -/
def takeUntilAux (src : List Char) (p : List Char → Nat → Bool) :
    Nat → Nat → List Char × Nat
  | 0, i => ([], i)
  | fuel + 1, i =>
    match src.get? i with
    | none => ([], i)
    | some c =>
      if p src i then ([], i)
      else
        let (cs, j) := takeUntilAux src p fuel (i + 1)
        (c :: cs, j)

/-- `SourceStream::take_until` (`stream.rs`): consume up to (excluding) the
stream state where `p` holds; `none` (cursor unchanged) if no character was
consumed, otherwise the consumed span and characters. -/
def takeUntil (src : List Char) (p : List Char → Nat → Bool) (i : Nat) :
    Option (Span × List Char) × Nat :=
  let (cs, j) := takeUntilAux src p (src.length + 1) i
  (if cs.isEmpty then none else some (⟨i, j⟩, cs), j)

/-- Shared `lexT` body of the one-character matchers (`CharPattern`,
`MatchMinorCategory`, `HexDigit`, `SingleEscapeChar`, `NonEscapeChar`,
`StringChar`): take one character, `unwrap` (= panic) at end of input. -/
def takeCharTokLexT (src : List Char) (i : Nat) : LexResult CharTok :=
  match streamTake src i with
  | some (loc, c) => .lexed ⟨Span.ofLoc loc, c⟩ (i + 1)
  | none => .panic

/-! ## Numbers: digits and mathematical values (`src/lexing/tokens/number.rs`) -/

/-- `impl LexT for HexDigit` (`lexing/tokens/number.rs`): peek is
`is_ascii_hexdigit` on the upcoming character. -/
def hexDigitInst : LexTInst CharTok :=
  ⟨fun src i => upcomingPred src i isAsciiHexdigit, takeCharTokLexT⟩

/-- `MathematicalValue for HexDigit` (`number.rs`): the digit's value.  The
Rust `_ => unreachable!()` arm panics; it is never reached on a lexed digit
and is mapped to `0` here. -/
def hexDigitMV (c : Char) : Nat :=
  match c with
  | '0' => 0x0 | '1' => 0x1 | '2' => 0x2 | '3' => 0x3 | '4' => 0x4
  | '5' => 0x5 | '6' => 0x6 | '7' => 0x7 | '8' => 0x8 | '9' => 0x9
  | 'A' => 0xA | 'B' => 0xB | 'C' => 0xC | 'D' => 0xD | 'E' => 0xE | 'F' => 0xF
  | 'a' => 0xA | 'b' => 0xB | 'c' => 0xC | 'd' => 0xD | 'e' => 0xE | 'f' => 0xF
  | _ => 0

/-- `MathematicalValue for Exactly<2, HexDigit>` (`number.rs`):
`self[0].mv() * 16 + self[1].mv()` (a `u8`, no overflow possible). -/
def mvExactly2Hex (ds : List CharTok) : Nat :=
  match ds with
  | [a, b] => hexDigitMV a.raw * 16 + hexDigitMV b.raw
  | _ => 0

/-- `MathematicalValue for Exactly<4, HexDigit>` (`number.rs`):
`4096·d₀ + 256·d₁ + 16·d₂ + d₃` (a `u16`, no overflow possible). -/
def mvExactly4Hex (ds : List CharTok) : Nat :=
  match ds with
  | [a, b, c, d] =>
    hexDigitMV a.raw * 4096 + hexDigitMV b.raw * 256 +
      hexDigitMV c.raw * 16 + hexDigitMV d.raw
  | _ => 0

/-- `MathematicalValue for AtLeast<N, HexDigit>` (`number.rs`): the digits in
lexed (left-to-right) order are enumerated and digit `i` contributes
`dᵢ · 16^i` — the FIRST digit gets weight `16^0`.  (Arithmetic is `u64` in
Rust; no input in this development comes near overflow.) -/
def mvAtLeastHex (ds : List CharTok) : Nat :=
  (((ds.map fun d => hexDigitMV d.raw).enum).map fun p => p.2 * 16 ^ p.1).sum

/-! ## Line terminators (`src/lexing/tokens/line_terminator.rs`) -/

/-- `LineTerminator` (`line_terminator.rs`): LF, CR, LS, PS, each holding the
span of its `Verbatim` child. -/
inductive LineTerminator where
  | lf (s : Span)
  | cr (s : Span)
  | ls (s : Span)
  | ps (s : Span)
deriving DecidableEq, Repr

/-- `LineTerminatorSequence` (`line_terminator.rs`): additionally CRLF. -/
inductive LineTerminatorSequence where
  | crlf (s : Span)
  | lf (s : Span)
  | cr (s : Span)
  | ls (s : Span)
  | ps (s : Span)
deriving DecidableEq, Repr

/-- `LineTerminator::peek` (and identically `LineTerminatorSequence::peek`):
one of the four single-character verbatim peeks. -/
def lineTerminatorPeek (src : List Char) (i : Nat) : Bool :=
  matchesAt src i ['\n'] || matchesAt src i ['\r'] ||
    matchesAt src i ['\u2028'] || matchesAt src i ['\u2029']

/-- `LineTerminator::lex` (`line_terminator.rs`): or-chain over the four
verbatim alternatives (each through the blanket `Lex`), then `into_result`. -/
def LineTerminator.lexT (src : List Char) (i : Nat) : LexResult LineTerminator :=
  (((lexBlanket (verbatimInst ['\n']) src i).map LineTerminator.lf).orElse fun j =>
    ((lexBlanket (verbatimInst ['\r']) src j).map LineTerminator.cr).orElse fun j2 =>
      ((lexBlanket (verbatimInst ['\u2028']) src j2).map LineTerminator.ls).orElse fun j3 =>
        (lexBlanket (verbatimInst ['\u2029']) src j3).map LineTerminator.ps
  ).unwrapAsResult

/-- `LineTerminatorSequence::lex` (`line_terminator.rs`): the CRLF verbatim
alternative is tried first, then LF, CR, LS, PS; then `into_result`. -/
def LineTerminatorSequence.lexT (src : List Char) (i : Nat) :
    LexResult LineTerminatorSequence :=
  (((lexBlanket (verbatimInst ['\r', '\n']) src i).map LineTerminatorSequence.crlf).orElse
      fun j =>
    ((lexBlanket (verbatimInst ['\n']) src j).map LineTerminatorSequence.lf).orElse fun j2 =>
      ((lexBlanket (verbatimInst ['\r']) src j2).map LineTerminatorSequence.cr).orElse fun j3 =>
        ((lexBlanket (verbatimInst ['\u2028']) src j3).map LineTerminatorSequence.ls).orElse
            fun j4 =>
          (lexBlanket (verbatimInst ['\u2029']) src j4).map LineTerminatorSequence.ps
  ).unwrapAsResult

/-- The `LexT` instance of `LineTerminatorSequence`, for use through the
blanket `Lex` impl. -/
def lineTerminatorSequenceInst : LexTInst LineTerminatorSequence :=
  ⟨lineTerminatorPeek, LineTerminatorSequence.lexT⟩

/-- The public `LineTerminatorSequence::lex` (through the blanket impl). -/
def LineTerminatorSequence.lex (src : List Char) (i : Nat) :
    LexResult LineTerminatorSequence :=
  lexBlanket lineTerminatorSequenceInst src i

/-! ## Comments (`src/lexing/tokens/comment.rs`) -/

/-- `SingleLineComment` (`comment.rs`): whole-token span and the span of the
contents after `//`. -/
structure SingleLineComment where
  span : Span
  inner : Span
deriving DecidableEq, Repr

/-- `MultiLineComment` (`comment.rs`): whole-token span and contents span. -/
structure MultiLineComment where
  span : Span
  inner : Span
deriving DecidableEq, Repr

/-- `SingleLineComment::lex` (`comment.rs`): consume `//` (direct `LexT` call
on the verbatim), then `take_until` the `LineTerminator` peek; the contents
span defaults to `Span::empty()` when nothing was consumed. -/
def SingleLineComment.lexT (src : List Char) (i : Nat) : LexResult SingleLineComment :=
  (verbatimLexT ['/', '/'] src i).andThen fun doubleSlash j =>
    let r := takeUntil src lineTerminatorPeek j
    let contents := (r.1.map Prod.fst).getD Span.empty
    .lexed ⟨doubleSlash.combine [contents], contents⟩ r.2

/-- `SingleLineComment::peek` (`comment.rs`): `input.upcoming("//")`. -/
def SingleLineComment.peek (src : List Char) (i : Nat) : Bool :=
  matchesAt src i ['/', '/']

/-- Public `SingleLineComment::lex` through the blanket impl. -/
def SingleLineComment.lex (src : List Char) (i : Nat) : LexResult SingleLineComment :=
  lexBlanket ⟨SingleLineComment.peek, SingleLineComment.lexT⟩ src i

/-- `MultiLineComment::lex` (`comment.rs`): consume `/*`, then `take_until`
the `*/` verbatim peek; the `*/` itself is not consumed by this code and no
unterminated-comment check is performed. -/
def MultiLineComment.lexT (src : List Char) (i : Nat) : LexResult MultiLineComment :=
  (verbatimLexT ['/', '*'] src i).andThen fun opening j =>
    let r := takeUntil src (fun s k => matchesAt s k ['*', '/']) j
    let contents := (r.1.map Prod.fst).getD Span.empty
    .lexed ⟨opening.combine [contents], contents⟩ r.2

/-- `MultiLineComment::peek` (`comment.rs`): `input.upcoming("/*")`. -/
def MultiLineComment.peek (src : List Char) (i : Nat) : Bool :=
  matchesAt src i ['/', '*']

/-- Public `MultiLineComment::lex` through the blanket impl. -/
def MultiLineComment.lex (src : List Char) (i : Nat) : LexResult MultiLineComment :=
  lexBlanket ⟨MultiLineComment.peek, MultiLineComment.lexT⟩ src i

/-! ## Escape sequences (`src/lexing/tokens/escapes.rs`) -/

/-- `is_single_escape_char` (`escapes.rs`). -/
def isSingleEscapeChar (c : Char) : Bool :=
  c = '\'' || c = '"' || c = '\\' || c = 'b' || c = 'f' ||
    c = 'n' || c = 'r' || c = 't' || c = 'v'

/-- `is_escape_char` (`escapes.rs`): single escape chars, decimal digits,
`x`, `u`. -/
def isEscapeChar (c : Char) : Bool :=
  isSingleEscapeChar c || (('0' ≤ c && c ≤ '9') || c = 'x' || c = 'u')

/-- `impl LexT for SingleEscapeChar` (`escapes.rs`). -/
def singleEscapeCharInst : LexTInst CharTok :=
  ⟨fun src i => upcomingPred src i isSingleEscapeChar, takeCharTokLexT⟩

/-- `impl LexT for NonEscapeChar` (`escapes.rs`): any upcoming character that
is neither a line terminator nor an escape character. -/
def nonEscapeCharInst : LexTInst CharTok :=
  ⟨fun src i => upcomingPred src i fun c => !(isLineTerminatorChar c || isEscapeChar c),
   takeCharTokLexT⟩

/-- `impl LexT for Null` (`escapes.rs`): upcoming `0` not followed by a
decimal digit (`peek_n(1)` is missing from the snapshot; modelled from the
spec §3: character at offset `k` without consuming). -/
def nullInst : LexTInst Span :=
  ⟨fun src i =>
      matchesAt src i ['0'] &&
        !(match src.get? (i + 1) with
          | some c => '0' ≤ c && c ≤ '9'
          | none => false),
   fun src i =>
     match streamTake src i with
     | some (loc, _) => .lexed (Span.ofLoc loc) (i + 1)
     | none => .panic⟩

/-- `HexEscapeSequence` (`escapes.rs`): the `x` verbatim and the
`Exactly<2, HexDigit>` digits. -/
structure HexEscapeSequence where
  vx : Span
  digits : List CharTok
deriving DecidableEq, Repr

/-- `UnicodeEscapeSequence` (`escapes.rs`): the `u` verbatim and the
`Exactly<4, HexDigit>` digits. -/
structure UnicodeEscapeSequence where
  vu : Span
  digits : List CharTok
deriving DecidableEq, Repr

/-- Modelled from the spec: the derived `Spanned` impl for the compound
`UnicodeEscapeSequence` is produced by a macro missing from the snapshot;
§3 prescribes the combination of the child spans. -/
def UnicodeEscapeSequence.span (u : UnicodeEscapeSequence) : Span :=
  u.vu.combine [Span.ofList (u.digits.map CharTok.span)]

/-- `HexEscapeSequence::lex` (`escapes.rs`): direct `LexT` lex of the `x`
verbatim, then `Lex::lex` of `Exactly<2, HexDigit>` with `unwrap_as_result`. -/
def HexEscapeSequence.lexT (src : List Char) (i : Nat) : LexResult HexEscapeSequence :=
  (verbatimLexT ['x'] src i).andThen fun vx j =>
    ((exactlyLex 2 hexDigitInst src j).unwrapAsResult).andThen fun ds k =>
      .lexed ⟨vx, ds⟩ k

/-- The `LexT` instance of `HexEscapeSequence`; peek is the `x` verbatim peek. -/
def hexEscapeSequenceInst : LexTInst HexEscapeSequence :=
  ⟨fun src i => matchesAt src i ['x'], HexEscapeSequence.lexT⟩

/-- `UnicodeEscapeSequence::lex` (`escapes.rs`): direct `LexT` lex of the `u`
verbatim, then `Exactly<4, HexDigit>` with `unwrap_as_result`. -/
def UnicodeEscapeSequence.lexT (src : List Char) (i : Nat) :
    LexResult UnicodeEscapeSequence :=
  (verbatimLexT ['u'] src i).andThen fun vu j =>
    ((exactlyLex 4 hexDigitInst src j).unwrapAsResult).andThen fun ds k =>
      .lexed ⟨vu, ds⟩ k

/-- The `LexT` instance of `UnicodeEscapeSequence`; peek is the `u` verbatim
peek. -/
def unicodeEscapeSequenceInst : LexTInst UnicodeEscapeSequence :=
  ⟨fun src i => matchesAt src i ['u'], UnicodeEscapeSequence.lexT⟩

/-- `CharacterEscapeSequence` (`escapes.rs`). -/
inductive CharacterEscapeSequence where
  | single (t : CharTok)
  | nonEscape (t : CharTok)
deriving DecidableEq, Repr

/-- `CharacterEscapeSequence::lex` (`escapes.rs`): `Single` first, then
`NonEscape`, then `unwrap_as_result`. -/
def CharacterEscapeSequence.lexT (src : List Char) (i : Nat) :
    LexResult CharacterEscapeSequence :=
  (((lexBlanket singleEscapeCharInst src i).map CharacterEscapeSequence.single).orElse
      fun j =>
    (lexBlanket nonEscapeCharInst src j).map CharacterEscapeSequence.nonEscape
  ).unwrapAsResult

/-- The `LexT` instance of `CharacterEscapeSequence`. -/
def characterEscapeSequenceInst : LexTInst CharacterEscapeSequence :=
  ⟨fun src i => (singleEscapeCharInst.peekT src i) || (nonEscapeCharInst.peekT src i),
   CharacterEscapeSequence.lexT⟩

/-- `EscapeSequence` (`escapes.rs`). -/
inductive EscapeSequence where
  | characterEscapeSequence (c : CharacterEscapeSequence)
  | null (s : Span)
  | hexEscapeSequence (h : HexEscapeSequence)
  | unicodeEscapeSequence (u : UnicodeEscapeSequence)
deriving DecidableEq, Repr

/-- `EscapeSequence::lex` (`escapes.rs`): or-chain over the four variants in
source order (each through the blanket `Lex`), then `unwrap_as_result`. -/
def EscapeSequence.lexT (src : List Char) (i : Nat) : LexResult EscapeSequence :=
  (((lexBlanket characterEscapeSequenceInst src i).map
        EscapeSequence.characterEscapeSequence).orElse fun j =>
    ((lexBlanket nullInst src j).map EscapeSequence.null).orElse fun j2 =>
      ((lexBlanket hexEscapeSequenceInst src j2).map
          EscapeSequence.hexEscapeSequence).orElse fun j3 =>
        (lexBlanket unicodeEscapeSequenceInst src j3).map
          EscapeSequence.unicodeEscapeSequence
  ).unwrapAsResult

/-- The `LexT` instance of `EscapeSequence`; peek is the disjunction of the
variant peeks. -/
def escapeSequenceInst : LexTInst EscapeSequence :=
  ⟨fun src i =>
      characterEscapeSequenceInst.peekT src i || nullInst.peekT src i ||
        hexEscapeSequenceInst.peekT src i || unicodeEscapeSequenceInst.peekT src i,
   EscapeSequence.lexT⟩

/-! ## Character values (`src/lexing/tokens/string.rs`, `escapes.rs`) -/

/-- `CharacterValue for SingleEscapeChar` (`escapes.rs`, Table 4 of ECMA-262
§7.8.4).  The Rust `_ => unreachable!()` arm panics; it is never reached on a
lexed token and yields `[]` here. -/
def cvSingleEscapeChar (c : Char) : List Nat :=
  match c with
  | '\'' => utf16Encode '\u0027'
  | '"' => utf16Encode '\u0022'
  | '\\' => utf16Encode '\u005C'
  | 'b' => utf16Encode '\u0008'
  | 'f' => utf16Encode '\u000C'
  | 'n' => utf16Encode '\u000A'
  | 'r' => utf16Encode '\u000D'
  | 't' => utf16Encode '\u0009'
  | 'v' => utf16Encode '\u000B'
  | _ => []

/-- `CharacterValue for CharacterEscapeSequence` (`escapes.rs`): dispatch;
the CV of a `NonEscapeChar` is the character itself. -/
def CharacterEscapeSequence.cv : CharacterEscapeSequence → List Nat
  | .single t => cvSingleEscapeChar t.raw
  | .nonEscape t => utf16Encode t.raw

/-- `CharacterValue for EscapeSequence` (`escapes.rs`): `Null` is U+0000, the
hex and unicode escapes are the single code unit equal to their MV. -/
def EscapeSequence.cv : EscapeSequence → List Nat
  | .characterEscapeSequence c => c.cv
  | .null _ => utf16Encode '\u0000'
  | .hexEscapeSequence h => [mvExactly2Hex h.digits]
  | .unicodeEscapeSequence u => [mvExactly4Hex u.digits]

/-- `CharacterValue::try_as_char` (`string.rs`): decode the first UTF-16
scalar of the CV, `none` for an unpaired surrogate. -/
def UnicodeEscapeSequence.tryAsChar (u : UnicodeEscapeSequence) : Option Char :=
  decodeUtf16First [mvExactly4Hex u.digits]

/-! ## String literals (`src/lexing/tokens/string.rs`) -/

/-- `StringPart<D>` (`string.rs`); the delimiter only affects lexing, so the
token shape is delimiter-free. -/
inductive StringPart where
  | chr (t : CharTok)
  | escape (bs : Span) (esc : EscapeSequence)
  | lineContinuation (bs : Span) (seq : LineTerminatorSequence)
  | ls (s : Span)
  | ps (s : Span)
deriving DecidableEq, Repr

/-- `StringChar::<D>::peek` (`string.rs`): not the delimiter, not a line
terminator, not a backslash, and a character exists. -/
def stringCharPeek (D : Char) (src : List Char) (i : Nat) : Bool :=
  !(matchesAt src i [D] || upcomingPred src i isLineTerminatorChar ||
      matchesAt src i ['\\']) && (src.get? i).isSome

/-- The `LexT` instance of `StringChar<D>` (`string.rs`). -/
def stringCharInst (D : Char) : LexTInst CharTok :=
  ⟨stringCharPeek D, takeCharTokLexT⟩

/-- `StringPart::<D>::lex` (`string.rs`): LS, PS, `StringChar`, then the
backslash chain (escape sequence, else line continuation with
`expected_msg`), then `unwrap_as_result`. -/
def StringPart.lexT (D : Char) (src : List Char) (i : Nat) : LexResult StringPart :=
  (((lexBlanket (verbatimInst [' ']) src i).map StringPart.ls).orElse fun j =>
    ((lexBlanket (verbatimInst [' ']) src j).map StringPart.ps).orElse fun j2 =>
      ((lexBlanket (stringCharInst D) src j2).map StringPart.chr).orElse fun j3 =>
        (lexBlanket (verbatimInst ['\\']) src j3).andThen fun bs k =>
          ((lexBlanket escapeSequenceInst src k).map fun esc =>
              StringPart.escape bs esc).orElse fun k2 =>
            ((lexBlanket lineTerminatorSequenceInst src k2).expectedMsg
                "Expected either an escape code here, or newline; got neither.").andThen
              fun seq m => .lexed (StringPart.lineContinuation bs seq) m
  ).unwrapAsResult

/-- `StringPart::<D>::peek` (`string.rs`). -/
def stringPartPeek (D : Char) (src : List Char) (i : Nat) : Bool :=
  stringCharPeek D src i || matchesAt src i ['\\'] ||
    matchesAt src i [' '] || matchesAt src i [' ']

/-- The `LexT` instance of `StringPart<D>`. -/
def stringPartInst (D : Char) : LexTInst StringPart :=
  ⟨stringPartPeek D, StringPart.lexT D⟩

/-- `LString` (`string.rs`): a double- or single-quoted literal with its
delimiter spans and parts. -/
inductive LString where
  | double (opening : Span) (parts : List StringPart) (closing : Span)
  | single (opening : Span) (parts : List StringPart) (closing : Span)
deriving DecidableEq, Repr

/-- `LString::lex` (`string.rs`): try the double-quoted form (opening quote
through the blanket impl, `Many<StringPart>` contents, closing quote with
`expected_msg`), or the single-quoted form, then `unwrap_as_result`. -/
def LString.lexT (src : List Char) (i : Nat) : LexResult LString :=
  (((lexBlanket (verbatimInst ['"']) src i).andThen fun op j =>
      (manyLex (stringPartInst '"') src j).andThen fun parts k =>
        ((lexBlanket (verbatimInst ['"']) src k).expectedMsg
            "Expected closing `\"`").andThen fun cl m =>
          .lexed (LString.double op parts cl) m).orElse fun j =>
    (lexBlanket (verbatimInst ['\'']) src j).andThen fun op k =>
      (manyLex (stringPartInst '\'') src k).andThen fun parts m =>
        ((lexBlanket (verbatimInst ['\'']) src m).expectedMsg
            "Expected closing `'`").andThen fun cl n =>
          .lexed (LString.single op parts cl) n
  ).unwrapAsResult

/-- `LString::peek` (`string.rs`): an upcoming `"` or `'`. -/
def LString.peek (src : List Char) (i : Nat) : Bool :=
  matchesAt src i ['"'] || matchesAt src i ['\'']

/-- Public `LString::lex` through the blanket impl. -/
def LString.lex (src : List Char) (i : Nat) : LexResult LString :=
  lexBlanket ⟨LString.peek, LString.lexT⟩ src i

/-- `CharacterValue for StringPart` (`string.rs`): a line continuation
contributes zero code units; LS and PS are themselves. -/
def StringPart.cv : StringPart → List Nat
  | .chr t => utf16Encode t.raw
  | .escape _ esc => esc.cv
  | .lineContinuation _ _ => []
  | .ls _ => utf16Encode ' '
  | .ps _ => utf16Encode ' '

/-- `collect_cv_into_utf16` / `StringValue for Many<StringPart>`
(`string.rs`): concatenate the CVs of the parts in order. -/
def svParts (parts : List StringPart) : List Nat :=
  (parts.map StringPart.cv).flatten

/-- `StringValue for LString` (`string.rs`). -/
def LString.sv : LString → List Nat
  | .double _ parts _ => svParts parts
  | .single _ parts _ => svParts parts

/-! ## Identifiers (`src/lexing/tokens/identifier.rs`) -/

/-- The Unicode letter categories of `UnicodeLetter = u!(Lu|Ll|Lt|Lm|Lo|Nl)`. -/
def unicodeLetterCats : List MinorCategory :=
  [.Lu, .Ll, .Lt, .Lm, .Lo, .Nl]

/-- `IdentifierStart` (`identifier.rs`). -/
inductive IdentifierStart where
  | letter (t : CharTok)
  | dollar (s : Span)
  | underscore (s : Span)
  | escape (bs : Span) (esc : UnicodeEscapeSequence)
deriving DecidableEq, Repr

/-- `IdentifierPart` (`identifier.rs`). -/
inductive IdentifierPart where
  | escape (bs : Span) (esc : UnicodeEscapeSequence)
  | start (s : IdentifierStart)
  | combiningMark (t : CharTok)
  | digit (t : CharTok)
  | connectorPunctuation (t : CharTok)
  | zwnj (s : Span)
  | zwj (s : Span)
deriving DecidableEq, Repr

/-- `CharacterAcceptor for IdentifierStart` (`identifier.rs`): a letter
category, `$`, or `_`. -/
def IdentifierStart.accepts (cl : Char → MinorCategory) (c : Char) : Bool :=
  if unicodeLetterCats.contains (cl c) then true
  else if c = '$' then true
  else if c = '_' then true
  else false

/-- `CharacterAcceptor for IdentifierPart` (`identifier.rs`): additionally
`Mn`, `Mc`, `Nd`, `Pc`, ZWNJ (U+200C) and ZWJ (U+200D). -/
def IdentifierPart.accepts (cl : Char → MinorCategory) (c : Char) : Bool :=
  if IdentifierStart.accepts cl c then true
  else if [MinorCategory.Mn, .Mc, .Nd, .Pc].contains (cl c) then true
  else if c = '\u200C' then true
  else if c = '\u200D' then true
  else false

/-- `check_unicode_escape` (`identifier.rs`): classify the decoded character
of the already-lexed escape; reject a character illegal in this position with
the spanned message.  When `try_as_char` gives `None` (unpaired surrogate) the
Rust code formats the error message with `ch.unwrap()`, a panic. -/
def checkUnicodeEscape {T : Type} (accepts : Char → Bool)
    (mk : Span → UnicodeEscapeSequence → T) (backslash : Span)
    (esc : UnicodeEscapeSequence) (i : Nat) : LexResult T :=
  match esc.tryAsChar with
  | none => .panic
  | some c =>
    if accepts c then .lexed (mk backslash esc) i
    else
      .errant
        ⟨backslash.combine [esc.span],
          "Invalid escaped character in identifier: `" ++ c.toString ++
            "` is not valid here."⟩ i

/-- `IdentifierStart::peek` (`identifier.rs`): letter, `$`, `_`, or `\`. -/
def IdentifierStart.peek (cl : Char → MinorCategory) (src : List Char) (i : Nat) : Bool :=
  (minorCategoryInst cl unicodeLetterCats).peekT src i ||
    matchesAt src i ['$'] || matchesAt src i ['_'] || matchesAt src i ['\\']

/-- `IdentifierStart::lex` (`identifier.rs`): or-chain of letter, `$`, `_`,
then the backslash chain (unicode escape with `expected_msg`, then
`check_unicode_escape`), then `unwrap_as_result`. -/
def IdentifierStart.lexT (cl : Char → MinorCategory) (src : List Char) (i : Nat) :
    LexResult IdentifierStart :=
  (((lexBlanket (minorCategoryInst cl unicodeLetterCats) src i).map
        IdentifierStart.letter).orElse fun j =>
    ((lexBlanket (verbatimInst ['$']) src j).map IdentifierStart.dollar).orElse fun j2 =>
      ((lexBlanket (verbatimInst ['_']) src j2).map IdentifierStart.underscore).orElse
          fun j3 =>
        (lexBlanket (verbatimInst ['\\']) src j3).andThen fun bs k =>
          ((lexBlanket unicodeEscapeSequenceInst src k).expectedMsg
              "Expected a unicode escape sequence `\\uXXXX` here.").andThen fun esc m =>
            checkUnicodeEscape (IdentifierStart.accepts cl) IdentifierStart.escape
              bs esc m
  ).unwrapAsResult

/-- The `LexT` instance of `IdentifierStart`. -/
def identifierStartInst (cl : Char → MinorCategory) : LexTInst IdentifierStart :=
  ⟨IdentifierStart.peek cl, IdentifierStart.lexT cl⟩

/-- `IdentifierPart::peek` (`identifier.rs`). -/
def IdentifierPart.peek (cl : Char → MinorCategory) (src : List Char) (i : Nat) : Bool :=
  IdentifierStart.peek cl src i ||
    (minorCategoryInst cl [.Mn, .Mc]).peekT src i ||
    (minorCategoryInst cl [.Nd]).peekT src i ||
    (minorCategoryInst cl [.Pc]).peekT src i ||
    matchesAt src i ['\u200C'] || matchesAt src i ['\u200D']

/-- `IdentifierPart::lex` (`identifier.rs`): the backslash-escape chain is
tried FIRST (to get the contextual validity check), then `Start`, combining
mark, digit, connector punctuation, ZWNJ, ZWJ, then `unwrap_as_result`. -/
def IdentifierPart.lexT (cl : Char → MinorCategory) (src : List Char) (i : Nat) :
    LexResult IdentifierPart :=
  (((lexBlanket (verbatimInst ['\\']) src i).andThen fun bs k =>
      ((lexBlanket unicodeEscapeSequenceInst src k).expectedMsg
          "Expected a unicode escape sequence `\\uXXXX` here.").andThen fun esc m =>
        checkUnicodeEscape (IdentifierPart.accepts cl) IdentifierPart.escape
          bs esc m).orElse fun j =>
    ((lexBlanket (identifierStartInst cl) src j).map IdentifierPart.start).orElse fun j2 =>
      ((lexBlanket (minorCategoryInst cl [.Mn, .Mc]) src j2).map
          IdentifierPart.combiningMark).orElse fun j3 =>
        ((lexBlanket (minorCategoryInst cl [.Nd]) src j3).map
            IdentifierPart.digit).orElse fun j4 =>
          ((lexBlanket (minorCategoryInst cl [.Pc]) src j4).map
              IdentifierPart.connectorPunctuation).orElse fun j5 =>
            ((lexBlanket (verbatimInst ['\u200C']) src j5).map
                IdentifierPart.zwnj).orElse fun j6 =>
              (lexBlanket (verbatimInst ['\u200D']) src j6).map IdentifierPart.zwj
  ).unwrapAsResult

/-- The `LexT` instance of `IdentifierPart`. -/
def identifierPartInst (cl : Char → MinorCategory) : LexTInst IdentifierPart :=
  ⟨IdentifierPart.peek cl, IdentifierPart.lexT cl⟩

/-- `IdentifierName` (`identifier.rs`): an `IdentifierStart` and
`Many<IdentifierPart>`. -/
structure IdentifierName where
  start : IdentifierStart
  parts : List IdentifierPart
deriving DecidableEq, Repr

/-- `IdentifierName::lex` (`identifier.rs`): direct `LexT` lex of the start,
then `Lex::lex` of `Many<IdentifierPart>` with `unwrap_as_result`. -/
def IdentifierName.lexT (cl : Char → MinorCategory) (src : List Char) (i : Nat) :
    LexResult IdentifierName :=
  (IdentifierStart.lexT cl src i).andThen fun s j =>
    ((manyLex (identifierPartInst cl) src j).unwrapAsResult).andThen fun ps k =>
      .lexed ⟨s, ps⟩ k

/-- `Identifier` (`identifier.rs`): wraps `IdentifierName`. -/
structure Identifier where
  name : IdentifierName
deriving DecidableEq, Repr

/-- `Identifier::lex` through the blanket impl; peek is
`IdentifierName::peek = IdentifierStart::peek`. -/
def Identifier.lex (cl : Char → MinorCategory) (src : List Char) (i : Nat) :
    LexResult Identifier :=
  lexBlanket
    ⟨IdentifierStart.peek cl,
     fun src i => (IdentifierName.lexT cl src i).map Identifier.mk⟩ src i

/-! ## The legacy number grammar (`src/lex/number.rs`, `src/lex/tokens.rs`,
`src/utils/mod.rs`)

The crate's `lib.rs` compiles only `common` and `lexing`, but `src/lex` is the
sole implementation of the full `NumericLiteral` grammar with the §7.8.3
after-check, so it is embedded here from its own sources.  Its `Lex` protocol
returns `Result<Option<T>, LexError>`; the same four-way result type is reused
(`lexed` = `Ok(Some(_))`, `nothing` = `Ok(None)`, `errant` = `Err(_)`,
`panic` = a Rust panic). -/

namespace OldLex

open AvJason (Span MinorCategory matchesAt upcomingPred isAsciiHexdigit isAsciiDigit
  unicodeLetterCats)

/-- `LexError` of `src/lex/mod.rs`: span, message and the captured source
snippet. -/
structure OldLexError where
  span : Span
  message : String
  text : Option String
deriving DecidableEq, Repr

/-- The legacy `LexResult<T> = Result<Option<T>, LexError>` with the cursor
made explicit, plus `panic` for Rust panics. -/
inductive OLexResult (α : Type) where
  | lexed (a : α) (i : Nat)
  | errant (e : OldLexError) (i : Nat)
  | nothing (i : Nat)
  | panic
deriving DecidableEq, Repr

/-- `SourceFile::source_at` (`src/utils/mod.rs`): the substring in
`[start, stop)`, `none` when out of bounds or empty. -/
def sourceAt (src : List Char) (start stop : Nat) : Option String :=
  if stop > src.length then none
  else if start ≥ stop then none
  else some (String.mk ((src.drop start).take (stop - start)))

/-- `SourceErrorHelper::expected` (`src/utils/mod.rs`) for a relative range
whose resolved bounds are `[start, stop)` (note: the Rust code derives the end
bound from the range's START bound, so `expected(Some(-1..0), t)` and
`expected(Some(-1..1), t)` both resolve to `[i-1, i)`). -/
def expectedErr (src : List Char) (start stop : Nat) (token : String) : OldLexError :=
  ⟨⟨start, stop⟩, "Expected token `" ++ token ++ "` here", sourceAt src start stop⟩

/-- `SourceErrorHelper::unexpected` (`src/utils/mod.rs`), same bound
resolution as `expectedErr`. -/
def unexpectedErr (src : List Char) (start stop : Nat) (token : String) : OldLexError :=
  ⟨⟨start, stop⟩, "Unexpected token `" ++ token ++ "`", sourceAt src start stop⟩

/-- The `#[Lex('c')]` derive of `avjason_macros` (`macros/src/lib.rs`): peek
compares the next character, lex consumes it into a single-character span. -/
def singleCharLex (ch : Char) (src : List Char) (i : Nat) : OLexResult Span :=
  if src.get? i = some ch then .lexed (Span.singleChar i) (i + 1) else .nothing i

/-- `Dot::peek` (derived). -/
def dotPeek (src : List Char) (i : Nat) : Bool := src.get? i = some '.'

/-- `Zero::peek` (derived `#[Lex('0')]`). -/
def zeroPeek (src : List Char) (i : Nat) : Bool := src.get? i = some '0'

/-- `NonZero::peek` (`number.rs`): an upcoming `1..=9`. -/
def nonZeroPeek (src : List Char) (i : Nat) : Bool :=
  upcomingPred src i fun c => '1' ≤ c && c ≤ '9'

/-- Scan forward while the predicate holds of the upcoming character (the
`loop { if !peek { break }; next() }` pattern); returns the stop index.
Fuel as in the main embedding. -/
def scanWhile (src : List Char) (p : Char → Bool) : Nat → Nat → Nat
  | 0, i => i
  | fuel + 1, i =>
    match src.get? i with
    | some c => if p c then scanWhile src p fuel (i + 1) else i
    | none => i

/-- `DecimalDigits::peek` (`number.rs`). -/
def decimalDigitsPeek (src : List Char) (i : Nat) : Bool :=
  upcomingPred src i isAsciiDigit

/-- `DecimalDigits::lex` (`number.rs`): gated on peek; consume the first
digit, then all further digits; token span `start..=end`. -/
def decimalDigitsLex (src : List Char) (i : Nat) : OLexResult Span :=
  if decimalDigitsPeek src i then
    let j := scanWhile src isAsciiDigit (src.length + 1) (i + 1)
    .lexed ⟨i, j⟩ j
  else .nothing i

/-- `ExponentIdicator` (`number.rs`; the typo is the crate's). -/
inductive ExponentIdicator where
  | uppercase (s : Span)
  | lowercase (s : Span)
deriving DecidableEq, Repr

/-- `ExponentIdicator::peek` (derived enum impl): `E` or `e`. -/
def exponentIdicatorPeek (src : List Char) (i : Nat) : Bool :=
  src.get? i = some 'E' || src.get? i = some 'e'

/-- `ExponentIdicator::lex` (derived enum impl): `Uppercase(E)` first, then
`Lowercase(e)`. -/
def exponentIdicatorLex (src : List Char) (i : Nat) : OLexResult ExponentIdicator :=
  match singleCharLex 'E' src i with
  | .lexed s j => .lexed (.uppercase s) j
  | _ =>
    match singleCharLex 'e' src i with
    | .lexed s j => .lexed (.lowercase s) j
    | _ => .nothing i

/-- `SignedInteger` (`number.rs`). -/
inductive SignedInteger where
  | noSign (d : Span)
  | positive (p : Span) (d : Span)
  | negative (m : Span) (d : Span)
deriving DecidableEq, Repr

/-- `SignedInteger::lex` (`number.rs`): `+`/`-`/digits in order; after a
consumed sign, `DecimalDigits::lex(input)...?` returns `None` (cursor past
the sign) when no digit follows. -/
def signedIntegerLex (src : List Char) (i : Nat) : OLexResult SignedInteger :=
  if src.get? i = some '+' then
    match decimalDigitsLex src (i + 1) with
    | .lexed d k => .lexed (.positive (Span.singleChar i) d) k
    | _ => .nothing (i + 1)
  else if src.get? i = some '-' then
    match decimalDigitsLex src (i + 1) with
    | .lexed d k => .lexed (.negative (Span.singleChar i) d) k
    | _ => .nothing (i + 1)
  else if decimalDigitsPeek src i then
    match decimalDigitsLex src i with
    | .lexed d k => .lexed (.noSign d) k
    | _ => .nothing i
  else .nothing i

/-- `ExponentPart` (`number.rs`). -/
structure ExponentPart where
  indicator : ExponentIdicator
  int : SignedInteger
deriving DecidableEq, Repr

/-- `ExponentPart::lex` (`number.rs`): gated on the indicator peek; a missing
signed integer is `expected(Some(-2..0), ...)`, which resolves to the span
`[j-2, j-1)`. -/
def exponentPartLex (src : List Char) (i : Nat) : OLexResult ExponentPart :=
  if exponentIdicatorPeek src i then
    match exponentIdicatorLex src i with
    | .lexed etok j =>
      match signedIntegerLex src j with
      | .lexed int k => .lexed ⟨etok, int⟩ k
      | .nothing k =>
        .errant (expectedErr src (k - 2) (k - 1) "Signed integer (e.g. +1, -2, 4)") k
      | .errant e k => .errant e k
      | .panic => .panic
    | _ => .panic
  else .nothing i

/-- `DecimalIntegerLiteral` (`number.rs`): `0` or a non-zero digit followed by
optional digits. -/
inductive DecimalIntegerLiteral where
  | zero (z : Span)
  | nonZero (n : Span) (ds : Option Span)
deriving DecidableEq, Repr

/-- `DecimalIntegerLiteral::peek` (`number.rs`). -/
def decimalIntegerLiteralPeek (src : List Char) (i : Nat) : Bool :=
  zeroPeek src i || nonZeroPeek src i

/-- `DecimalIntegerLiteral::lex` (`number.rs`): the `Zero` branch returns
immediately (it does NOT look at the following character); the `NonZero`
branch greedily takes the remaining digits. -/
def decimalIntegerLiteralLex (src : List Char) (i : Nat) :
    OLexResult DecimalIntegerLiteral :=
  if zeroPeek src i then .lexed (.zero (Span.singleChar i)) (i + 1)
  else if nonZeroPeek src i then
    let j := i + 1
    if decimalDigitsPeek src j then
      match decimalDigitsLex src j with
      | .lexed d k => .lexed (.nonZero (Span.singleChar i) (some d)) k
      | _ => .panic
    else .lexed (.nonZero (Span.singleChar i) none) j
  else .nothing i

/-- `Integer` (`number.rs`): integer part plus optional exponent. -/
structure IntegerLit where
  int : DecimalIntegerLiteral
  exp : Option ExponentPart
deriving DecidableEq, Repr

/-- `Integer::lex` (`number.rs`): gated on the integer peek; a failing
exponent lex is `.unwrap()`ed (a panic on `Err`). -/
def integerLex (src : List Char) (i : Nat) : OLexResult IntegerLit :=
  if decimalIntegerLiteralPeek src i then
    match decimalIntegerLiteralLex src i with
    | .lexed int j =>
      if exponentIdicatorPeek src j then
        match exponentPartLex src j with
        | .lexed ex k => .lexed ⟨int, some ex⟩ k
        | .errant _ _ => .panic
        | .nothing k => .lexed ⟨int, none⟩ k
        | .panic => .panic
      else .lexed ⟨int, none⟩ j
    | _ => .nothing i
  else .nothing i

/-- `IntegralDecimalMantissa` (`number.rs`): digits, dot, optional digits,
optional exponent. -/
structure IntegralDecimalMantissa where
  int : DecimalIntegerLiteral
  dot : Span
  man : Option Span
  exp : Option ExponentPart
deriving DecidableEq, Repr

/-- `IntegralDecimalMantissa::peek` (`number.rs`): fork the stream, lex a
`DecimalIntegerLiteral` on the fork, and require an upcoming dot there. -/
def integralDecimalMantissaPeek (src : List Char) (i : Nat) : Bool :=
  if decimalIntegerLiteralPeek src i then
    match decimalIntegerLiteralLex src i with
    | .lexed _ j => dotPeek src j
    | _ => false
  else false

/-- `IntegralDecimalMantissa::lex` (`number.rs`): gated on its peek; a
missing dot is `expected(Some(-1..1), ".")`, resolving to span `[k-1, k)`;
the optional mantissa digits and exponent are peek-gated `.unwrap()`s. -/
def integralDecimalMantissaLex (src : List Char) (i : Nat) :
    OLexResult IntegralDecimalMantissa :=
  if integralDecimalMantissaPeek src i then
    match decimalIntegerLiteralLex src i with
    | .lexed int j =>
      match singleCharLex '.' src j with
      | .lexed d k =>
        let manRes : Option Span × Nat :=
          if decimalDigitsPeek src k then
            match decimalDigitsLex src k with
            | .lexed m k2 => (some m, k2)
            | _ => (none, k)
          else (none, k)
        let k2 := manRes.2
        if exponentIdicatorPeek src k2 then
          match exponentPartLex src k2 with
          | .lexed ex k3 => .lexed ⟨int, d, manRes.1, some ex⟩ k3
          | .errant _ _ => .panic
          | .nothing k3 => .lexed ⟨int, d, manRes.1, none⟩ k3
          | .panic => .panic
        else .lexed ⟨int, d, manRes.1, none⟩ k2
      | .nothing k => .errant (expectedErr src (k - 1) k ".") k
      | _ => .panic
    | _ => .panic
  else .nothing i

/-- `DecimalMantissa` (`number.rs`): dot, digits, optional exponent. -/
structure DecimalMantissa where
  dot : Span
  digits : Span
  exp : Option ExponentPart
deriving DecidableEq, Repr

/-- `DecimalMantissa::lex` (`number.rs`): gated on the dot peek; missing
digits after the dot are `expected(Some(-1..0), "<DECIMAL DIGITS [0-9]>")`,
span `[k-1, k)`. -/
def decimalMantissaLex (src : List Char) (i : Nat) : OLexResult DecimalMantissa :=
  if dotPeek src i then
    match singleCharLex '.' src i with
    | .lexed d k =>
      match decimalDigitsLex src k with
      | .lexed ds k2 =>
        if exponentIdicatorPeek src k2 then
          match exponentPartLex src k2 with
          | .lexed ex k3 => .lexed ⟨d, ds, some ex⟩ k3
          | .errant _ _ => .panic
          | .nothing k3 => .lexed ⟨d, ds, none⟩ k3
          | .panic => .panic
        else .lexed ⟨d, ds, none⟩ k2
      | .nothing k2 => .errant (expectedErr src (k2 - 1) k2 "<DECIMAL DIGITS [0-9]>") k2
      | _ => .panic
    | _ => .panic
  else .nothing i

/-- `DecimalLiteral` (`number.rs`). -/
inductive DecimalLiteral where
  | integralDecimalMantissa (m : IntegralDecimalMantissa)
  | decimalMantissa (m : DecimalMantissa)
  | integer (n : IntegerLit)
deriving DecidableEq, Repr

/-- `DecimalLiteral::peek` (derived enum impl). -/
def decimalLiteralPeek (src : List Char) (i : Nat) : Bool :=
  integralDecimalMantissaPeek src i || dotPeek src i || decimalIntegerLiteralPeek src i

/-- `DecimalLiteral::lex` (derived enum impl, `macros/src/lib.rs`): try the
variants in declaration order, `?`-propagating errors. -/
def decimalLiteralLex (src : List Char) (i : Nat) : OLexResult DecimalLiteral :=
  match integralDecimalMantissaLex src i with
  | .lexed m j => .lexed (.integralDecimalMantissa m) j
  | .errant e j => .errant e j
  | .panic => .panic
  | .nothing _ =>
    match decimalMantissaLex src i with
    | .lexed m j => .lexed (.decimalMantissa m) j
    | .errant e j => .errant e j
    | .panic => .panic
    | .nothing _ =>
      match integerLex src i with
      | .lexed n j => .lexed (.integer n) j
      | .errant e j => .errant e j
      | .panic => .panic
      | .nothing _ => .nothing i

/-- `HexPrefix` (`number.rs`; renamed, a Lean surface restriction). -/
inductive HexPrefixKind where
  | lowercase (s : Span)
  | uppercase (s : Span)
deriving DecidableEq, Repr

/-- `LowercaseHexPrefix::peek` (`number.rs`): `ahead(0..2) == "0x"`. -/
def hexPrefixLowerPeek (src : List Char) (i : Nat) : Bool :=
  matchesAt src i ['0', 'x'] && decide (i < src.length)

/-- `UppercaseHexPrefix::peek` (`number.rs`): `ahead(0..2) == "0X"`. -/
def hexPrefixUpperPeek (src : List Char) (i : Nat) : Bool :=
  matchesAt src i ['0', 'X'] && decide (i < src.length)

/-- `HexPrefix::lex` (derived enum impl over the two prefix kinds, each of
which consumes two characters with span `start..=start+1`). -/
def hexPrefixKindLex (src : List Char) (i : Nat) : OLexResult HexPrefixKind :=
  if hexPrefixLowerPeek src i then .lexed (.lowercase ⟨i, i + 2⟩) (i + 2)
  else if hexPrefixUpperPeek src i then .lexed (.uppercase ⟨i, i + 2⟩) (i + 2)
  else .nothing i

/-- `HexIntegerLiteral` (`number.rs`): prefix, first digit, further digits. -/
structure HexIntegerLiteral where
  pfx : HexPrefixKind
  first : Span
  rest : List Span
deriving DecidableEq, Repr

/-- `HexIntegerLiteral::peek` (`number.rs`). -/
def hexIntegerLiteralPeek (src : List Char) (i : Nat) : Bool :=
  hexPrefixLowerPeek src i || hexPrefixUpperPeek src i

/-- `HexIntegerLiteral::lex` (`number.rs`): prefix, then a required hex digit
(`expected(Some(-1..0), "<HEX DIGIT>")`, span `[j-1, j)`), then all further
hex digits. -/
def hexIntegerLiteralLex (src : List Char) (i : Nat) : OLexResult HexIntegerLiteral :=
  match hexPrefixKindLex src i with
  | .lexed p j =>
    if upcomingPred src j isAsciiHexdigit then
      let k := j + 1
      let m := scanWhile src isAsciiHexdigit (src.length + 1) k
      .lexed ⟨p, Span.singleChar j, (List.range (m - k)).map fun t => Span.singleChar (k + t)⟩ m
    else .errant (expectedErr src (j - 1) j "<HEX DIGIT>") j
  | _ => .nothing i

/-- `NumericLiteral` (`number.rs`). -/
inductive NumericLiteral where
  | decimal (d : DecimalLiteral)
  | hex (h : HexIntegerLiteral)
deriving DecidableEq, Repr

/-- `is_unicode_letter` (`LIdentifier` in `src/lex/tokens.rs`). -/
def isUnicodeLetter (cl : Char → MinorCategory) (c : Char) : Bool :=
  unicodeLetterCats.contains (cl c)

/-- Legacy `UnicodeEscapeSequence::peek` (`src/lex/escape.rs`): an upcoming
`u` with `relative_match(1..=4, is_hex_digit)`, i.e. positions `i+1..i+5` in
bounds and all hex. -/
def oldUnicodeEscapePeek (src : List Char) (i : Nat) : Bool :=
  src.get? i = some 'u' &&
    ((decide (i + 1 < src.length) && decide (i + 5 ≤ src.length)) &&
      (List.range 4).all fun t => upcomingPred src (i + 1 + t) isAsciiHexdigit)

/-- `LIdentifier::is_identifier_start` (`src/lex/tokens.rs`): Unicode letter,
`$`, `_`, or a backslash whose escape lookahead is consulted.  NOTE: the Rust
code forks the stream and advances the fork past the backslash, but then calls
`UnicodeEscapeSequence::peek(input)` on the UNFORKED stream (still at the
backslash); that behaviour is preserved. -/
def isIdentifierStart (cl : Char → MinorCategory) (src : List Char) (i : Nat) : Bool :=
  match src.get? i with
  | none => false
  | some ch =>
    if isUnicodeLetter cl ch then true
    else if ch = '$' || ch = '_' then true
    else if ch = '\\' then oldUnicodeEscapePeek src i
    else false

/-- `NumericLiteral::after_check` (`number.rs`, ECMA-262 §7.8.3): the
character at the cursor must be neither an identifier start nor an ASCII
digit. -/
def afterCheck (cl : Char → MinorCategory) (src : List Char) (i : Nat) : Bool :=
  !(isIdentifierStart cl src i ||
      (match src.get? i with
       | some c => isAsciiDigit c
       | none => false))

/-- The variant-selection part of `NumericLiteral::lex` (`number.rs`): hex
when the hex prefix peeks, else decimal when it peeks, else `Ok(None)`; the
inner `.unwrap().unwrap()`s turn `Err`/`None` into panics. -/
def numericLiteralLexBody (src : List Char) (i : Nat) : OLexResult NumericLiteral :=
  if hexIntegerLiteralPeek src i then
    match hexIntegerLiteralLex src i with
    | .lexed h j => .lexed (.hex h) j
    | _ => .panic
  else if decimalLiteralPeek src i then
    match decimalLiteralLex src i with
    | .lexed d j => .lexed (.decimal d) j
    | _ => .panic
  else .nothing i

/-- `NumericLiteral::lex` (`number.rs`): lex the body, then apply the
after-check at the resulting cursor; on violation return
`unexpected(Some(-1..0), "<DECIMAL DIGIT or IDENTIFIER START>")`
(span `[j-1, j)`). -/
def numericLiteralLex (cl : Char → MinorCategory) (src : List Char) (i : Nat) :
    OLexResult NumericLiteral :=
  match numericLiteralLexBody src i with
  | .panic => .panic
  | .lexed v j =>
    if !afterCheck cl src j then
      .errant (unexpectedErr src (j - 1) j "<DECIMAL DIGIT or IDENTIFIER START>") j
    else .lexed v j
  | .nothing j =>
    if !afterCheck cl src j then
      .errant (unexpectedErr src (j - 1) j "<DECIMAL DIGIT or IDENTIFIER START>") j
    else .nothing j
  | .errant e j =>
    if !afterCheck cl src j then
      .errant (unexpectedErr src (j - 1) j "<DECIMAL DIGIT or IDENTIFIER START>") j
    else .errant e j

end OldLex

/-! ## Statement helpers -/

/-- Public `HexEscapeSequence::lex` through the blanket impl. -/
def HexEscapeSequence.lex (src : List Char) (i : Nat) : LexResult HexEscapeSequence :=
  lexBlanket hexEscapeSequenceInst src i

/-- Public `StringPart::<D>::lex` through the blanket impl. -/
def StringPart.lex (D : Char) (src : List Char) (i : Nat) : LexResult StringPart :=
  lexBlanket (stringPartInst D) src i

/-- Projection of a string-literal lex result onto its string value (SV). -/
def svOfResult : LexResult LString → Option (List Nat)
  | .lexed s _ => some s.sv
  | _ => none

/-- Modelled from the spec: the standard big-endian base-16 positional value
`Σ dᵢ·16^(N−1−i)` of a most-significant-first digit list ("for N hex digits it
is a `u64` computed base-16", §4.11, with the weighting of
`Exactly<4, HexDigit>`). -/
def specBigEndianHexMV (ds : List Nat) : Nat :=
  ds.foldl (fun acc d => 16 * acc + d) 0

/-! ## Shared lemmas about the loop combinators -/

/-- `take_until` consumes to end of input when the predicate never fires on
any in-bounds position at or after the start. -/
theorem takeUntilAux_all_false (src : List Char) (p : List Char → Nat → Bool) :
    ∀ (fuel i : Nat), src.length ≤ i + fuel → i ≤ src.length →
      (∀ j, i ≤ j → j < src.length → p src j = false) →
      takeUntilAux src p fuel i = (src.drop i, src.length) := by
  intro fuel
  induction fuel with
  | zero =>
    intro i h1 h2 _
    have : i = src.length := by omega
    subst this
    simp [takeUntilAux]
  | succ f ih =>
    intro i h1 h2 h3
    rcases Nat.lt_or_ge i src.length with hlt | hge
    · have hc : src.get? i = some (src.get ⟨i, hlt⟩) := List.get?_eq_get hlt
      have hrec := ih (i + 1) (by omega) (by omega)
        (fun j hj hj2 => h3 j (by omega) hj2)
      simp only [takeUntilAux, hc, h3 i le_rfl hlt, Bool.false_eq_true, if_false, hrec]
      rw [List.drop_eq_getElem_cons hlt]
      simp [List.get_eq_getElem]
    · have hi : i = src.length := by omega
      subst hi
      have hn : src.get? src.length = none := by simp
      simp [takeUntilAux, hn]

/-- `take_until` wrapper of `takeUntilAux_all_false`. -/
theorem takeUntil_all_false (src : List Char) (p : List Char → Nat → Bool) (i : Nat)
    (h2 : i ≤ src.length)
    (h3 : ∀ j, i ≤ j → j < src.length → p src j = false) :
    takeUntil src p i =
      (if (src.drop i).isEmpty then none else some (⟨i, src.length⟩, src.drop i),
        src.length) := by
  unfold takeUntil
  rw [takeUntilAux_all_false src p (src.length + 1) i (by omega) h2 h3]

/-- One unfolding step of the `Many` loop. -/
theorem manyLexAux_succ {α : Type} (L : LexTInst α) (src : List Char) (f i : Nat) :
    manyLexAux L src (f + 1) i =
      (match lexBlanket L src i with
       | .lexed a j =>
         (match manyLexAux L src f j with
          | .lexed as k => .lexed (a :: as) k
          | r => r)
       | .errant e j => .errant e j
       | .nothing _ => .lexed [] i
       | .panic => .panic) := rfl

/-- The `Many<HexDigit>` loop consumes exactly the two hex digits at `s` and
`s + 1` when the character at `s + 2` is absent or not a hex digit. -/
theorem manyLexAux_hex_two (src : List Char) (s : Nat) (d1 d2 : Char) (f : Nat)
    (h1 : src[s]? = some d1) (hx1 : isAsciiHexdigit d1 = true)
    (h2 : src[s + 1]? = some d2) (hx2 : isAsciiHexdigit d2 = true)
    (h3 : ∀ c, src[s + 2]? = some c → isAsciiHexdigit c = false) :
    manyLexAux hexDigitInst src (f + 3) s =
      .lexed [⟨Span.ofLoc s, d1⟩, ⟨Span.ofLoc (s + 1), d2⟩] (s + 2) := by
  have hb1 : lexBlanket hexDigitInst src s = .lexed ⟨Span.ofLoc s, d1⟩ (s + 1) := by
    simp [lexBlanket, hexDigitInst, upcomingPred, h1, hx1, takeCharTokLexT, streamTake]
  have hb2 : lexBlanket hexDigitInst src (s + 1) =
      .lexed ⟨Span.ofLoc (s + 1), d2⟩ (s + 1 + 1) := by
    simp [lexBlanket, hexDigitInst, upcomingPred, h2, hx2, takeCharTokLexT, streamTake]
  have hb3 : lexBlanket hexDigitInst src (s + 2) = .nothing (s + 2) := by
    cases hc : src[s + 2]? with
    | none => simp [lexBlanket, hexDigitInst, upcomingPred, hc]
    | some c => simp [lexBlanket, hexDigitInst, upcomingPred, hc, h3 c hc]
  have e12 : s + 1 + 1 = s + 2 := by omega
  show manyLexAux hexDigitInst src (f + 1 + 1 + 1) s = _
  rw [manyLexAux_succ, hb1]
  dsimp only
  rw [manyLexAux_succ, hb2]
  dsimp only
  rw [e12, manyLexAux_succ, hb3]

/-- `manyLexAux_hex_two` at the fuel used by `manyLex`. -/
theorem manyLex_hex_two (src : List Char) (s : Nat) (d1 d2 : Char)
    (h1 : src[s]? = some d1) (hx1 : isAsciiHexdigit d1 = true)
    (h2 : src[s + 1]? = some d2) (hx2 : isAsciiHexdigit d2 = true)
    (h3 : ∀ c, src[s + 2]? = some c → isAsciiHexdigit c = false) :
    manyLex hexDigitInst src s =
      .lexed [⟨Span.ofLoc s, d1⟩, ⟨Span.ofLoc (s + 1), d2⟩] (s + 2) := by
  have hlen : s + 1 < src.length := by
    by_contra h
    rw [List.getElem?_eq_none (by omega)] at h2
    exact Option.noConfusion h2
  have hf : src.length + 1 = (src.length - 2) + 3 := by
    omega
  rw [manyLex, hf]
  exact manyLexAux_hex_two src s d1 d2 _ h1 hx1 h2 hx2 h3

/-! ## Claim theorems -/

/-- C1: evaluation of `MultiLineComment::lex` at the spec's failing inputs.
On the unterminated input `/* abc` the code returns `Lexed` (contents to end
of input, cursor 6), not `Errant` as the claim requires; and on the
terminated input `/* a */` the cursor stops at index 5 and the token's span
ends at 5, so the closing `*/` (indices 5–6) is never consumed and the span
does not end after it. -/
theorem multiLineComment_unterminated_lexes_and_closing_left :
    MultiLineComment.lex ['/', '*', ' ', 'a', 'b', 'c'] 0 =
      .lexed ⟨⟨0, 6⟩, ⟨2, 6⟩⟩ 6 ∧
    MultiLineComment.lex ['/', '*', ' ', 'a', ' ', '*', '/'] 0 =
      .lexed ⟨⟨0, 5⟩, ⟨2, 5⟩⟩ 5 := by
  exact ⟨by decide, by decide⟩

/-- C2: `Identifier::lex` PANICS on the input `\uD800`: the escape's CV is the
unpaired surrogate 0xD800, `try_as_char` returns `None`, and
`check_unicode_escape` then calls `ch.unwrap()` while formatting its error
message.  This refutes "errors are values; no panics on grammar violation". -/
theorem identifier_lex_panics_on_unpaired_surrogate :
    Identifier.lex asciiMinorCategory ['\\', 'u', 'D', '8', '0', '0'] 0 = .panic := by
  decide

/-- C3 (counterexample): the input `x203` has at least two hex digits after
the `x`, yet `HexEscapeSequence::lex` is `Errant` (the greedy
`Exactly<2, HexDigit>` consumes all three digits and then fails the count
check) instead of succeeding with two digits consumed. -/
theorem hexEscape_three_digits_errant :
    isAsciiHexdigit '2' = true ∧ isAsciiHexdigit '0' = true ∧
    isAsciiHexdigit '3' = true ∧
    HexEscapeSequence.lex ['x', '2', '0', '3'] 0 =
      .errant ⟨⟨4, 5⟩, "Expected 2 tokens: got 3."⟩ 4 := by
  decide

/-- C3 (amended): whenever the `x` is followed by exactly two hex digits —
the character after them being absent or not itself a hex digit — lexing a
`HexEscapeSequence` succeeds, consumes the `x` and the two digits only, and
its CV is the single UTF-16 code unit `16·d₁ + d₀`; and the string literal
`"\x20x26"` lexes with SV `[0x20, 'x', '2', '6']`.  (With a third consecutive
hex digit the greedy `Exactly` combinator makes the result `Errant` instead,
see the counterexample.) -/
theorem hexEscape_exactly_two_digits :
    (∀ (src : List Char) (i : Nat) (d1 d2 : Char),
        src[i]? = some 'x' →
        src[i + 1]? = some d1 → isAsciiHexdigit d1 = true →
        src[i + 2]? = some d2 → isAsciiHexdigit d2 = true →
        Option.all (fun c => !isAsciiHexdigit c) src[i + 3]? = true →
        HexEscapeSequence.lex src i =
            .lexed ⟨⟨i, i + 1⟩, [⟨⟨i + 1, i + 2⟩, d1⟩, ⟨⟨i + 2, i + 3⟩, d2⟩]⟩ (i + 3) ∧
          EscapeSequence.cv
              (.hexEscapeSequence
                ⟨⟨i, i + 1⟩, [⟨⟨i + 1, i + 2⟩, d1⟩, ⟨⟨i + 2, i + 3⟩, d2⟩]⟩) =
            [hexDigitMV d1 * 16 + hexDigitMV d2]) ∧
    svOfResult (LString.lex ['"', '\\', 'x', '2', '0', 'x', '2', '6', '"'] 0) =
      some [0x20, 120, 50, 54] := by
  constructor
  · intro src i d1 d2 hx h1 hx1 h2 hx2 h3opt
    have h3 : ∀ c, src[i + 3]? = some c → isAsciiHexdigit c = false := by
      intro c hc
      rw [hc] at h3opt
      simpa using h3opt
    have h2' : src[i + 1 + 1]? = some d2 := by
      rw [show i + 1 + 1 = i + 2 by omega]; exact h2
    have h3' : ∀ c, src[i + 1 + 2]? = some c → isAsciiHexdigit c = false := by
      rw [show i + 1 + 2 = i + 3 by omega]; exact h3
    have hmany := manyLex_hex_two src (i + 1) d1 d2 h1 hx1 h2' hx2 h3'
    rw [show i + 1 + 1 = i + 2 by omega, show i + 1 + 2 = i + 3 by omega] at hmany
    have hbound : i + 1 ≤ src.length := by
      by_contra h
      rw [List.getElem?_eq_none (by omega)] at h1
      exact Option.noConfusion h1
    constructor
    · simp only [HexEscapeSequence.lex, lexBlanket, hexEscapeSequenceInst, matchesAt,
        List.get?_eq_getElem?, hx]
      simp only [decide_True, Bool.true_and, decide_eq_true_eq, if_true]
      simp only [HexEscapeSequence.lexT, verbatimLexT, List.length_cons, List.length_nil,
        List.range_succ, List.range_zero, List.map, Span.ofList, Span.ofLoc,
        Span.singleChar, Span.combine, LexResult.andThen, LexResult.unwrapAsResult,
        exactlyLex, hmany, Nat.zero_add, Nat.add_zero, if_pos hbound]
      simp
    · simp [EscapeSequence.cv, mvExactly2Hex]
  · decide

/-- C3 (witness): the amended theorem applied at the concrete input `x20x`
(two hex digits, then a non-hex-digit `x`). -/
theorem hexEscape_exactly_two_digits_witness :
    HexEscapeSequence.lex ['x', '2', '0', 'x'] 0 =
      .lexed ⟨⟨0, 1⟩, [⟨⟨1, 2⟩, '2'⟩, ⟨⟨2, 3⟩, '0'⟩]⟩ 3 :=
  (hexEscape_exactly_two_digits.1 ['x', '2', '0', 'x'] 0 '2' '0' (by decide) (by decide)
    (by decide) (by decide) (by decide) (by decide)).1

/-- C4: `AtLeast<N, HexDigit>`'s MV enumerates the digits in lexed order and
weights digit `i` by `16^i`: for the digits `1` `2` it computes
`1·16⁰ + 2·16¹ = 33`, whereas the big-endian positional value stated by the
claim — and used by `Exactly<4, HexDigit>` (digits `0 0 1 2` give 18) — is
`1·16 + 2 = 18`. -/
theorem atLeast_hex_mv_little_endian :
    mvAtLeastHex [⟨⟨0, 1⟩, '1'⟩, ⟨⟨1, 2⟩, '2'⟩] = 33 ∧
    specBigEndianHexMV [1, 2] = 18 ∧
    mvExactly4Hex [⟨⟨0, 1⟩, '0'⟩, ⟨⟨1, 2⟩, '0'⟩, ⟨⟨2, 3⟩, '1'⟩, ⟨⟨3, 4⟩, '2'⟩] = 18 ∧
    (33 : Nat) ≠ 18 := by
  decide

/-- C5: the §7.8.3 after-check of the legacy `NumericLiteral::lex`: whenever
the numeric body is consumed (result `lexed v j`), the lex result is the
spanned `Errant` exactly when the character at `j` is an identifier start or
a decimal digit, and is the body's token otherwise. -/
theorem numericLiteral_after_check :
    ∀ (cl : Char → MinorCategory) (src : List Char) (i : Nat)
      (v : OldLex.NumericLiteral) (j : Nat),
      OldLex.numericLiteralLexBody src i = .lexed v j →
      (OldLex.afterCheck cl src j = false →
        OldLex.numericLiteralLex cl src i =
          .errant (OldLex.unexpectedErr src (j - 1) j
            "<DECIMAL DIGIT or IDENTIFIER START>") j) ∧
      (OldLex.afterCheck cl src j = true →
        OldLex.numericLiteralLex cl src i = .lexed v j) := by
  intro cl src i v j h
  unfold OldLex.numericLiteralLex
  rw [h]
  constructor <;> intro hac <;> simp [hac]

/-- C5 (witness): `123abc` is `Errant` after consuming `123` (`a` is
identifier-start), `02.5` is `Errant` after consuming `0` (`2` is a digit),
and `123 abc` lexes `123` successfully. -/
theorem numericLiteral_after_check_witness :
    OldLex.numericLiteralLex asciiMinorCategory ['1', '2', '3', 'a', 'b', 'c'] 0 =
      .errant (OldLex.unexpectedErr ['1', '2', '3', 'a', 'b', 'c'] 2 3
        "<DECIMAL DIGIT or IDENTIFIER START>") 3 ∧
    OldLex.numericLiteralLex asciiMinorCategory ['0', '2', '.', '5'] 0 =
      .errant (OldLex.unexpectedErr ['0', '2', '.', '5'] 0 1
        "<DECIMAL DIGIT or IDENTIFIER START>") 1 ∧
    OldLex.numericLiteralLex asciiMinorCategory ['1', '2', '3', ' ', 'a', 'b', 'c'] 0 =
      .lexed (.decimal (.integer ⟨.nonZero ⟨0, 1⟩ (some ⟨1, 3⟩), none⟩)) 3 :=
  ⟨(numericLiteral_after_check asciiMinorCategory ['1', '2', '3', 'a', 'b', 'c'] 0
      (.decimal (.integer ⟨.nonZero ⟨0, 1⟩ (some ⟨1, 3⟩), none⟩)) 3 (by decide)).1
      (by decide),
   (numericLiteral_after_check asciiMinorCategory ['0', '2', '.', '5'] 0
      (.decimal (.integer ⟨.zero ⟨0, 1⟩, none⟩)) 1 (by decide)).1 (by decide),
   (numericLiteral_after_check asciiMinorCategory ['1', '2', '3', ' ', 'a', 'b', 'c'] 0
      (.decimal (.integer ⟨.nonZero ⟨0, 1⟩ (some ⟨1, 3⟩), none⟩)) 3 (by decide)).2
      (by decide)⟩

/-- C6: the context-sensitive identifier-escape check: for any escape that
decodes to a character `c`, `check_unicode_escape` returns `Errant` with the
message "Invalid escaped character in identifier: `c` is not valid here." and
the span combining the backslash's and the escape's spans exactly when the
acceptor rejects `c`, and the mapped token otherwise; concretely, the
complete input `@` (decoding to `@`, not identifier-start) is `Errant`
with span 0–6, the legal `A` (`A`) is accepted, and in IdentifierPart
position `_@` is `Errant` with span 1–7. -/
theorem identifier_escape_legality :
    (∀ (T : Type) (accepts : Char → Bool) (mk : Span → UnicodeEscapeSequence → T)
        (bs : Span) (esc : UnicodeEscapeSequence) (i : Nat) (c : Char),
      esc.tryAsChar = some c →
        (accepts c = false →
          checkUnicodeEscape accepts mk bs esc i =
            .errant ⟨bs.combine [esc.span],
              "Invalid escaped character in identifier: `" ++ c.toString ++
                "` is not valid here."⟩ i) ∧
        (accepts c = true →
          checkUnicodeEscape accepts mk bs esc i = .lexed (mk bs esc) i)) ∧
    Identifier.lex asciiMinorCategory ['\\', 'u', '0', '0', '4', '0'] 0 =
      .errant ⟨⟨0, 6⟩,
        "Invalid escaped character in identifier: `@` is not valid here."⟩ 6 ∧
    (Identifier.lex asciiMinorCategory ['\\', 'u', '0', '0', '4', '1'] 0).isLexed =
      true ∧
    Identifier.lex asciiMinorCategory ['_', '\\', 'u', '0', '0', '4', '0'] 0 =
      .errant ⟨⟨1, 7⟩,
        "Invalid escaped character in identifier: `@` is not valid here."⟩ 7 := by
  refine ⟨?_, by decide, by decide, by decide⟩
  intro T accepts mk bs esc i c h
  unfold checkUnicodeEscape
  rw [h]
  constructor <;> intro ha <;> simp [ha]

/-- C6 (witness): the generic check applied to the concrete escape `@`
in IdentifierStart position. -/
theorem identifier_escape_legality_witness :
    checkUnicodeEscape (IdentifierStart.accepts asciiMinorCategory)
        IdentifierStart.escape ⟨0, 1⟩
        ⟨⟨1, 2⟩, [⟨⟨2, 3⟩, '0'⟩, ⟨⟨3, 4⟩, '0'⟩, ⟨⟨4, 5⟩, '4'⟩, ⟨⟨5, 6⟩, '0'⟩]⟩ 6 =
      .errant ⟨⟨0, 6⟩,
        "Invalid escaped character in identifier: `@` is not valid here."⟩ 6 := by
  have h := (identifier_escape_legality.1 IdentifierStart
      (IdentifierStart.accepts asciiMinorCategory) IdentifierStart.escape ⟨0, 1⟩
      ⟨⟨1, 2⟩, [⟨⟨2, 3⟩, '0'⟩, ⟨⟨3, 4⟩, '0'⟩, ⟨⟨4, 5⟩, '4'⟩, ⟨⟨5, 6⟩, '0'⟩]⟩ 6 '@'
      (by decide)).1 (by decide)
  simpa using h

/-- C7 (counterexample): `Exactly<2, HexDigit>` is a lexable type whose
`peek` is false on the input `SS` (no upcoming hex digit), yet its `lex`
returns `Errant` ("Expected 2 tokens: got 0."), not `Nothing` — refuting the
claim for every lexable token type. -/
theorem exactlyLex_errant_when_peek_false :
    exactlyPeek 2 hexDigitInst ['S', 'S'] 0 = false ∧
    exactlyLex 2 hexDigitInst ['S', 'S'] 0 =
      .errant ⟨⟨0, 1⟩, "Expected 2 tokens: got 0."⟩ 0 := by
  decide

/-- C7 (amended): for every token type whose `Lex` impl is the blanket
peek-then-lex impl over `LexT` (every token type except the quantifier
combinators `Many`/`AtLeast`/`Exactly`), a false peek makes `lex` return
`Nothing` with the stream cursor exactly where it was. -/
theorem blanket_peek_false_lex_nothing :
    ∀ (α : Type) (L : LexTInst α) (src : List Char) (i : Nat),
      L.peekT src i = false → lexBlanket L src i = .nothing i := by
  intro α L src i h
  simp [lexBlanket, h]

/-- C7 (witness): the blanket impl of `HexDigit` at a non-hex-digit input. -/
theorem blanket_peek_false_lex_nothing_witness :
    hexDigitInst.peekT ['z'] 0 = false ∧
    lexBlanket hexDigitInst ['z'] 0 = .nothing 0 :=
  ⟨by decide, blanket_peek_false_lex_nothing _ hexDigitInst ['z'] 0 (by decide)⟩

/-- C8: on every input starting with CR LF, `LineTerminatorSequence::lex`
returns the single `CRLF` variant with span covering both characters (the
CRLF verbatim alternative is tried before the lone-CR one, so the result is
never a one-character CR sequence). -/
theorem lineTerminatorSequence_crlf_first :
    ∀ rest : List Char,
      LineTerminatorSequence.lex ('\r' :: '\n' :: rest) 0 =
        .lexed (.crlf ⟨0, 2⟩) 2 := by
  intro rest
  simp [LineTerminatorSequence.lex, lexBlanket, lineTerminatorSequenceInst,
    lineTerminatorPeek, matchesAt, LineTerminatorSequence.lexT, verbatimInst,
    verbatimLexT, LexResult.map, LexResult.orElse, LexResult.unwrapAsResult,
    Span.ofList, Span.ofLoc, Span.singleChar, Span.combine, List.range_succ]

/-- C8 (witness): the CRLF theorem at the concrete input `\r\n` followed by
`a`. -/
theorem lineTerminatorSequence_crlf_first_witness :
    LineTerminatorSequence.lex ['\r', '\n', 'a'] 0 = .lexed (.crlf ⟨0, 2⟩) 2 :=
  lineTerminatorSequence_crlf_first ['a']

/-- C9: a line continuation contributes zero UTF-16 code units to the string
value; a backslash immediately followed by the LF line terminator lexes as a
`LineContinuation` string part; and the double-quoted literal with contents
`a`, backslash, LF, `b` lexes successfully with SV exactly `['a', 'b']`
(code units 97, 98). -/
theorem string_line_continuation_erasure :
    (∀ (bs : Span) (seq : LineTerminatorSequence),
      StringPart.cv (.lineContinuation bs seq) = []) ∧
    (∀ rest : List Char,
      StringPart.lex '"' ('\\' :: '\n' :: rest) 0 =
        .lexed (.lineContinuation ⟨0, 1⟩ (.lf ⟨1, 2⟩)) 2) ∧
    svOfResult (LString.lex ['"', 'a', '\\', '\n', 'b', '"'] 0) = some [97, 98] := by
  refine ⟨fun bs seq => rfl, ?_, by decide⟩
  intro rest
  simp [StringPart.lex, lexBlanket, stringPartInst, stringPartPeek, stringCharInst,
    stringCharPeek, matchesAt, upcomingPred, isLineTerminatorChar, StringPart.lexT,
    verbatimInst, verbatimLexT, LexResult.map, LexResult.orElse, LexResult.andThen,
    LexResult.unwrapAsResult, LexResult.expectedMsg, escapeSequenceInst,
    characterEscapeSequenceInst, singleEscapeCharInst, nonEscapeCharInst, nullInst,
    hexEscapeSequenceInst, unicodeEscapeSequenceInst, isSingleEscapeChar, isEscapeChar,
    lineTerminatorSequenceInst, lineTerminatorPeek, LineTerminatorSequence.lexT,
    Span.ofList, Span.ofLoc, Span.singleChar, Span.combine, List.range_succ]

/-- C9 (witness): the general line-continuation part lex applied at the
concrete remainder `b"`. -/
theorem string_line_continuation_erasure_witness :
    StringPart.lex '"' ['\\', '\n', 'b', '"'] 0 =
      .lexed (.lineContinuation ⟨0, 1⟩ (.lf ⟨1, 2⟩)) 2 :=
  string_line_continuation_erasure.2.1 ['b', '"']

/-- C10: a single-line comment reaching end of input without a line
terminator is accepted: for `//` followed by non-line-terminator characters
up to EOF, `SingleLineComment::lex` returns `Lexed` with the inner span
covering everything after `//` (the empty span when nothing follows), the
cursor at end of input. -/
theorem singleLineComment_eof_lexed :
    ∀ rest : List Char, (∀ c ∈ rest, isLineTerminatorChar c = false) →
      SingleLineComment.lex ('/' :: '/' :: rest) 0 =
        .lexed
          ⟨if rest.isEmpty then ⟨0, 0⟩ else ⟨0, 2 + rest.length⟩,
           if rest.isEmpty then Span.empty else ⟨2, 2 + rest.length⟩⟩
          (2 + rest.length) := by
  intro rest hrest
  have h3 : ∀ j, 2 ≤ j → j < ('/' :: '/' :: rest).length →
      lineTerminatorPeek ('/' :: '/' :: rest) j = false := by
    intro j hj hjl
    obtain ⟨k, rfl⟩ : ∃ k, j = k + 2 := ⟨j - 2, by omega⟩
    have hk : k < rest.length := by simp at hjl; omega
    have hsrc : rest[k]? = some (rest.get ⟨k, hk⟩) := by
      simp [List.getElem?_eq_getElem hk]
    have hl := hrest (rest.get ⟨k, hk⟩) (rest.get_mem _ _)
    simp only [isLineTerminatorChar, Bool.or_eq_false_iff, decide_eq_false_iff_not] at hl
    simp only [List.get_eq_getElem] at hl
    simp [lineTerminatorPeek, matchesAt, List.get?, hsrc, hl.1.1.1, hl.1.1.2, hl.1.2,
      hl.2]
  have htu := takeUntil_all_false ('/' :: '/' :: rest) lineTerminatorPeek 2
    (by simp) h3
  simp only [List.drop_succ_cons, List.drop_zero] at htu
  simp only [SingleLineComment.lex, lexBlanket, SingleLineComment.peek, matchesAt,
    List.get?, SingleLineComment.lexT, verbatimLexT, LexResult.andThen]
  norm_num
  rw [htu]
  cases rest with
  | nil =>
    simp [Span.ofList, Span.combine, Span.ofLoc, Span.singleChar, Span.empty,
      List.range_succ]
  | cons a l =>
    simp [Span.ofList, Span.combine, Span.ofLoc, Span.singleChar, List.range_succ]
    omega

/-- C10 (witness): the theorem at `//xyz` (inner span 2–5) and at the bare
`//` (empty inner span). -/
theorem singleLineComment_eof_lexed_witness :
    SingleLineComment.lex ['/', '/', 'x', 'y', 'z'] 0 =
      .lexed ⟨⟨0, 5⟩, ⟨2, 5⟩⟩ 5 ∧
    SingleLineComment.lex ['/', '/'] 0 = .lexed ⟨⟨0, 0⟩, Span.empty⟩ 2 := by
  constructor
  · have h := singleLineComment_eof_lexed ['x', 'y', 'z'] (by decide)
    simpa using h
  · have h := singleLineComment_eof_lexed [] (by decide)
    simpa using h

end AvJason
